import Mathlib

/-!
Verification development for the Mini Triangle compiler
(scanner.py, parser.py, codegen.py).

The Python sources are shallowly embedded: every stateful loop becomes a
fueled recursion (the fuel argument only bounds the number of loop
iterations; a result of none means the computation did not finish within
the given bound, for any bound), every Python exception becomes an error
value, and the dynamically typed token value field becomes the sum type
PyVal.  Machine integers do not occur (Python integers are unbounded), so
Int and Nat are used directly.
-/

namespace MT

/-! Token constants, from scanner.py. -/

def TK_IDENTIFIER : Nat := 0
def TK_INTLITERAL : Nat := 1
def TK_OPERATOR   : Nat := 2
def TK_BEGIN      : Nat := 3
def TK_CONST      : Nat := 4
def TK_DO         : Nat := 5
def TK_ELSE       : Nat := 6
def TK_END        : Nat := 7
def TK_IF         : Nat := 8
def TK_IN         : Nat := 9
def TK_LET        : Nat := 10
def TK_THEN       : Nat := 11
def TK_VAR        : Nat := 12
def TK_WHILE      : Nat := 13
def TK_SEMICOLON  : Nat := 14
def TK_COLON      : Nat := 15
def TK_BECOMES    : Nat := 16
def TK_IS         : Nat := 17
def TK_LPAREN     : Nat := 18
def TK_RPAREN     : Nat := 19
def TK_EOT        : Nat := 20

/-- Dynamically typed Python value stored in a token (a string or an
integer).  Keyword and punctuation tokens carry the integer 0, exactly as
in scanner.py. -/
inductive PyVal where
  | s (v : String)
  | n (v : Int)
deriving DecidableEq, Repr

/-- Token structure from scanner.py: type, value and position. -/
structure Token where
  type : Nat
  val : PyVal
  pos : Nat
deriving DecidableEq, Repr

/-- Operator characters, the OPER list of scanner.py. -/
def OPER : List Char := ['+', '-', '*', '/', '<', '>', '=', '\\']

/-- ScannerError exception: position and the offending character
(none stands for the empty-string end-of-input sentinel). -/
structure ScannerError where
  pos : Nat
  char : Option Char
deriving DecidableEq, Repr

/-- Python str.isspace for the single characters the scanner can see. -/
def pyIsSpace (c : Char) : Bool :=
  c = ' ' || c = '\t' || c = '\n' || c = '\r' || c = '\x0b' || c = '\x0c'

/-- Scanner cursor state: the unread input, the position counter, the
current character (none models the empty string returned by read past the
end) and the end-of-text flag, as in scanner.py. -/
structure ScanState where
  remaining : List Char
  pos : Nat
  char : Option Char
  eot : Bool
deriving DecidableEq, Repr

/-- char_take from scanner.py: consume the current character, read the
next one (setting the eot flag when the input is exhausted), advance the
position, and return the previous character. -/
def char_take (st : ScanState) : Option Char × ScanState :=
  match st.remaining with
  | [] => (st.char, { remaining := [], pos := st.pos + 1, char := none, eot := true })
  | c :: rest => (st.char, { remaining := rest, pos := st.pos + 1, char := some c, eot := st.eot })

/-- Scanner construction from scanner.py: position 0, empty current
character, then one char_take to load the first character. -/
def initScanner (s : String) : ScanState :=
  (char_take { remaining := s.data, pos := 0, char := none, eot := false }).2

/-- skip_comm from scanner.py: take characters while the current one is
not a newline.  The end-of-input sentinel is never a newline, so past the
end of the text this loop never stops; the fuel only bounds the number of
iterations inspected. -/
def skip_comm : Nat → ScanState → Option ScanState
  | 0, _ => none
  | f + 1, st =>
    if st.char = some '\n' then some st
    else skip_comm f (char_take st).2

/-- Decimal value of a digit list, as Python int() of the joined digits. -/
def natOfDigits (ds : List Char) : Nat :=
  ds.foldl (fun a c => 10 * a + (c.toNat - 48)) 0

/-- Digit-collecting loop of scan_int. -/
def scan_int_loop : Nat → ScanState → List Char → Option (List Char × ScanState)
  | 0, _, _ => none
  | f + 1, st, acc =>
    match st.char with
    | some c => if c.isDigit then scan_int_loop f (char_take st).2 (acc ++ [c]) else some (acc, st)
    | none => some (acc, st)

/-- scan_int from scanner.py: record the position of the first digit,
take it, then collect the maximal digit run and build an integer-literal
token. -/
def scan_int (f : Nat) (st : ScanState) : Option (Token × ScanState) :=
  let pos := st.pos - 1
  match char_take st with
  | (some c, st1) =>
    match scan_int_loop f st1 [c] with
    | some (ds, st2) => some (⟨TK_INTLITERAL, .n (Int.ofNat (natOfDigits ds)), pos⟩, st2)
    | none => none
  | (none, _) => none

/-- Alphanumeric-collecting loop of scan_chars. -/
def scan_chars_loop : Nat → ScanState → List Char → Option (List Char × ScanState)
  | 0, _, _ => none
  | f + 1, st, acc =>
    match st.char with
    | some c => if c.isAlphanum then scan_chars_loop f (char_take st).2 (acc ++ [c]) else some (acc, st)
    | none => some (acc, st)

/-- Keyword dispatch at the end of scan_chars: the fixed keyword set is
checked case-sensitively, anything else is an identifier carrying its
spelling. -/
def keyword_token (w : String) (pos : Nat) : Token :=
  if w = "begin" then ⟨TK_BEGIN, .n 0, pos⟩
  else if w = "const" then ⟨TK_CONST, .n 0, pos⟩
  else if w = "do" then ⟨TK_DO, .n 0, pos⟩
  else if w = "else" then ⟨TK_ELSE, .n 0, pos⟩
  else if w = "end" then ⟨TK_END, .n 0, pos⟩
  else if w = "if" then ⟨TK_IF, .n 0, pos⟩
  else if w = "in" then ⟨TK_IN, .n 0, pos⟩
  else if w = "let" then ⟨TK_LET, .n 0, pos⟩
  else if w = "then" then ⟨TK_THEN, .n 0, pos⟩
  else if w = "var" then ⟨TK_VAR, .n 0, pos⟩
  else if w = "while" then ⟨TK_WHILE, .n 0, pos⟩
  else ⟨TK_IDENTIFIER, .s w, pos⟩

/-- scan_chars from scanner.py: record the position of the first letter,
take it, collect the maximal alphanumeric run, and classify the word. -/
def scan_chars (f : Nat) (st : ScanState) : Option (Token × ScanState) :=
  let pos := st.pos - 1
  match char_take st with
  | (some c, st1) =>
    match scan_chars_loop f st1 [c] with
    | some (cs, st2) => some (keyword_token (String.mk cs) pos, st2)
    | none => none
  | (none, _) => none

/-- scan_token from scanner.py.  Mirrors the character dispatch loop:
whitespace and comments re-enter the loop, every other recognized
character class produces one token, anything else is a ScannerError.
At end of text an EOT token at the current position is produced. -/
def scan_token : Nat → ScanState → Option (Except ScannerError (Token × ScanState))
  | 0, _ => none
  | f + 1, st =>
    if st.eot then some (.ok (⟨TK_EOT, .n 0, st.pos - 1⟩, st))
    else
      match st.char with
      | none => some (.error ⟨st.pos - 1, none⟩)
      | some c =>
        if pyIsSpace c then scan_token f (char_take st).2
        else if c.isDigit then
          match scan_int f st with
          | some (t, st1) => some (.ok (t, st1))
          | none => none
        else if c.isAlpha then
          match scan_chars f st with
          | some (t, st1) => some (.ok (t, st1))
          | none => none
        else if c ∈ OPER then some (.ok (⟨TK_OPERATOR, .s c.toString, st.pos - 1⟩, (char_take st).2))
        else if c = '!' then
          match skip_comm f st with
          | some st1 => scan_token f st1
          | none => none
        else if c = ';' then some (.ok (⟨TK_SEMICOLON, .n 0, st.pos - 1⟩, (char_take st).2))
        else if c = ':' then
          let st1 := (char_take st).2
          match st1.char with
          | some '=' => some (.ok (⟨TK_BECOMES, .n 0, st1.pos - 1 - 1⟩, (char_take st1).2))
          | _ => some (.ok (⟨TK_COLON, .n 0, st.pos - 1⟩, st1))
        else if c = '~' then some (.ok (⟨TK_IS, .n 0, st.pos - 1⟩, (char_take st).2))
        else if c = '(' then some (.ok (⟨TK_LPAREN, .n 0, st.pos - 1⟩, (char_take st).2))
        else if c = ')' then some (.ok (⟨TK_RPAREN, .n 0, st.pos - 1⟩, (char_take st).2))
        else some (.error ⟨st.pos - 1, some c⟩)

/-- Token-collecting loop of Scanner.scan: scan tokens until the EOT
token has been appended. -/
def scan_loop : Nat → ScanState → List Token → Option (Except ScannerError (List Token))
  | 0, _, _ => none
  | f + 1, st, acc =>
    match scan_token f st with
    | none => none
    | some (.error e) => some (.error e)
    | some (.ok (t, st1)) =>
      if t.type = TK_EOT then some (.ok (acc ++ [t]))
      else scan_loop f st1 (acc ++ [t])

/-- Scanner.scan from scanner.py on a whole input string.  A result of
none means the scanner did not finish within the fuel bound. -/
def scan (f : Nat) (s : String) : Option (Except ScannerError (List Token)) :=
  scan_loop f (initScanner s) []

/-!
AST node types.

Modelled from the spec: the ast module imported by parser.py and
codegen.py is not among the provided source files; its node classes are
plain data constructors.  The variants and their fields follow section 3
of the spec (Command, Expr, Declaration, Vname, Program) and the exact
constructor-call and field-access sites in parser.py and codegen.py
(AssignCommand variable/expression, CallCommand identifier/expression,
SequentialCommand command1/command2, IfCommand expression/command1/
command2, WhileCommand expression/command, LetCommand declaration/
command, BinaryExpression expr1/oper/expr2, IntegerExpression value,
VnameExpression variable (spelled variable_ here, since that word is a
Lean keyword), ConstDeclaration identifier/expression,
VarDeclaration identifier/type_denoter, SequentialDeclaration
decl1/decl2, TypeDenoter identifier, Vname identifier, Program command).
Fields hold PyVal where parser.py stores a token value there.
-/

/-- Vname AST node: a bare variable name, built from a token value. -/
structure Vname where
  identifier : PyVal
deriving DecidableEq, Repr

/-- Expression AST nodes. -/
inductive Expr where
  | IntegerExpression (value : PyVal)
  | VnameExpression (variable_ : Vname)
  | BinaryExpression (expr1 : Expr) (oper : PyVal) (expr2 : Expr)
deriving DecidableEq, Repr

/-- TypeDenoter AST node, built from an arbitrary token value. -/
structure TypeDenoter where
  identifier : PyVal
deriving DecidableEq, Repr

/-- Declaration AST nodes. -/
inductive Declaration where
  | ConstDeclaration (identifier : PyVal) (expression : Expr)
  | VarDeclaration (identifier : PyVal) (type_denoter : TypeDenoter)
  | SequentialDeclaration (decl1 decl2 : Declaration)
deriving DecidableEq, Repr

/-- Command AST nodes. -/
inductive Command where
  | AssignCommand (variable_ : Vname) (expression : Expr)
  | CallCommand (identifier : PyVal) (expression : Expr)
  | SequentialCommand (command1 command2 : Command)
  | IfCommand (expression : Expr) (command1 command2 : Command)
  | WhileCommand (expression : Expr) (command : Command)
  | LetCommand (declaration : Declaration) (command : Command)
deriving DecidableEq, Repr

/-- Program AST root. -/
structure Program where
  command : Command
deriving DecidableEq, Repr

/-!
Parser, from parser.py.  The token cursor (tokens, curindex, curtoken)
becomes the explicit state PState.  ParserError carries the position and
the found token type; an out-of-range tokens index (a Python IndexError)
is a separate error value.  The mutually recursive parse methods become a
record of functions built by one step functional iterated over a fuel
bound, so that every definition is a plain structural recursion.
-/

/-- Parser error: ParserError (position and found token type) from
parser.py, or the IndexError a Python list raises on an out-of-range
token index. -/
inductive PError where
  | parseError (pos : Nat) (type : Nat)
  | indexError
deriving DecidableEq, Repr

/-- Parser cursor state from parser.py: the token list, the current
index, and the current token. -/
structure PState where
  tokens : List Token
  curindex : Nat
  curtoken : Token
deriving DecidableEq, Repr

/-- Parser construction from parser.py: index 0, current token =
tokens[0] (the token list handed to Parser is never empty). -/
def mkParser (t0 : Token) (rest : List Token) : PState :=
  ⟨t0 :: rest, 0, t0⟩

/-- Outcome of a parse routine: no result within the fuel bound, a
raised error, or a value together with the advanced cursor. -/
inductive POut (α : Type) where
  | div
  | err (e : PError)
  | ok (a : α) (st : PState)
deriving DecidableEq, Repr

/-- token_accept_any from parser.py: advance the cursor unless the
current token is EOT. -/
def token_accept_any (st : PState) : Except PError PState :=
  if st.curtoken.type = TK_EOT then .ok st
  else
    match st.tokens.get? (st.curindex + 1) with
    | some t => .ok { st with curindex := st.curindex + 1, curtoken := t }
    | none => .error .indexError

/-- token_accept from parser.py: raise ParserError with the current
token's position and type on a kind mismatch, else advance. -/
def token_accept (type : Nat) (st : PState) : Except PError PState :=
  if st.curtoken.type = type then token_accept_any st
  else .error (.parseError st.curtoken.pos st.curtoken.type)

/-- parse_var from parser.py.  Note that the type-denoter token is read
but not consumed here; parse_declaration consumes it unconditionally. -/
def parse_var (st : PState) : POut Declaration :=
  let t := st.curtoken
  if t.type = TK_IDENTIFIER then
    match token_accept_any st with
    | .error e => .err e
    | .ok st1 =>
      match token_accept TK_COLON st1 with
      | .error e => .err e
      | .ok st2 => .ok (.VarDeclaration t.val ⟨st2.curtoken.val⟩) st2
  else .err (.parseError st.curtoken.pos st.curtoken.type)

/-- The record of mutually recursive parse routines of parser.py. -/
structure ParserFuns where
  expr : PState → POut Expr
  exprLoop : Expr → PState → POut Expr
  secexpr : PState → POut Expr
  secexprLoop : Expr → PState → POut Expr
  tertexpr : PState → POut Expr
  tertexprLoop : Expr → PState → POut Expr
  priexpr : PState → POut Expr
  identifier : PState → POut Command
  declaration : PState → POut Declaration
  constDecl : PState → POut Declaration
  command : PState → POut Command
  beginCmd : PState → POut Command
  beginLoop : Command → PState → POut Command
  letCmd : PState → POut Command
  letLoop : Declaration → PState → POut Declaration
  program : PState → POut Program

/-- Zero-fuel parser: every routine is still running. -/
def divFuns : ParserFuns where
  expr := fun _ => .div
  exprLoop := fun _ _ => .div
  secexpr := fun _ => .div
  secexprLoop := fun _ _ => .div
  tertexpr := fun _ => .div
  tertexprLoop := fun _ _ => .div
  priexpr := fun _ => .div
  identifier := fun _ => .div
  declaration := fun _ => .div
  constDecl := fun _ => .div
  command := fun _ => .div
  beginCmd := fun _ => .div
  beginLoop := fun _ _ => .div
  letCmd := fun _ => .div
  letLoop := fun _ _ => .div
  program := fun _ => .div

/-- One step of the parser: each routine of parser.py, with every
(mutually) recursive call going through the previous fuel level.  Each
field transcribes the correspondingly named Parser method; the Loop
fields are the while loops of those methods. -/
def parserStep (rec : ParserFuns) : ParserFuns where
  expr := fun st =>
    match rec.secexpr st with
    | .div => .div
    | .err e => .err e
    | .ok e1 st1 => rec.exprLoop e1 st1
  exprLoop := fun e1 st =>
    let t := st.curtoken
    if t.type = TK_OPERATOR ∧ (t.val = .s ">" ∨ t.val = .s "<" ∨ t.val = .s "=") then
      match token_accept_any st with
      | .error e => .err e
      | .ok st1 =>
        match rec.secexpr st1 with
        | .div => .div
        | .err e => .err e
        | .ok e2 st2 => rec.exprLoop (.BinaryExpression e1 t.val e2) st2
    else .ok e1 st
  secexpr := fun st =>
    match rec.tertexpr st with
    | .div => .div
    | .err e => .err e
    | .ok e1 st1 => rec.secexprLoop e1 st1
  secexprLoop := fun e1 st =>
    let t := st.curtoken
    if t.type = TK_OPERATOR ∧ (t.val = .s "+" ∨ t.val = .s "-") then
      match token_accept_any st with
      | .error e => .err e
      | .ok st1 =>
        match rec.tertexpr st1 with
        | .div => .div
        | .err e => .err e
        | .ok e2 st2 => rec.secexprLoop (.BinaryExpression e1 t.val e2) st2
    else .ok e1 st
  tertexpr := fun st =>
    match rec.priexpr st with
    | .div => .div
    | .err e => .err e
    | .ok e1 st1 => rec.tertexprLoop e1 st1
  tertexprLoop := fun e1 st =>
    let t := st.curtoken
    if t.type = TK_OPERATOR ∧ (t.val = .s "*" ∨ t.val = .s "/" ∨ t.val = .s "\\") then
      match token_accept_any st with
      | .error e => .err e
      | .ok st1 =>
        match rec.priexpr st1 with
        | .div => .div
        | .err e => .err e
        | .ok e2 st2 => rec.tertexprLoop (.BinaryExpression e1 t.val e2) st2
    else .ok e1 st
  priexpr := fun st =>
    let t := st.curtoken
    if t.type = TK_INTLITERAL then
      match token_accept_any st with
      | .error e => .err e
      | .ok st1 => .ok (.IntegerExpression t.val) st1
    else if t.type = TK_LPAREN then
      match token_accept_any st with
      | .error e => .err e
      | .ok st1 =>
        match rec.expr st1 with
        | .div => .div
        | .err e => .err e
        | .ok e1 st2 =>
          match token_accept TK_RPAREN st2 with
          | .error e => .err e
          | .ok st3 => .ok e1 st3
    else if t.type = TK_IDENTIFIER then
      match token_accept_any st with
      | .error e => .err e
      | .ok st1 => .ok (.VnameExpression ⟨t.val⟩) st1
    else .err (.parseError st.curtoken.pos st.curtoken.type)
  identifier := fun st =>
    let vname : Vname := ⟨st.curtoken.val⟩
    match token_accept_any st with
    | .error e => .err e
    | .ok st1 =>
      if st1.curtoken.type = TK_BECOMES then
        match token_accept_any st1 with
        | .error e => .err e
        | .ok st2 =>
          match rec.expr st2 with
          | .div => .div
          | .err e => .err e
          | .ok e2 st3 => .ok (.AssignCommand vname e2) st3
      else if st1.curtoken.type = TK_LPAREN then
        match token_accept_any st1 with
        | .error e => .err e
        | .ok st2 =>
          match rec.expr st2 with
          | .div => .div
          | .err e => .err e
          | .ok e2 st3 =>
            match token_accept TK_RPAREN st3 with
            | .error e => .err e
            | .ok st4 => .ok (.CallCommand vname.identifier e2) st4
      else .err (.parseError st1.curtoken.pos st1.curtoken.type)
  declaration := fun st =>
    if st.curtoken.type = TK_VAR then
      match token_accept_any st with
      | .error e => .err e
      | .ok st1 =>
        match parse_var st1 with
        | .div => .div
        | .err e => .err e
        | .ok decl st2 =>
          match token_accept_any st2 with
          | .error e => .err e
          | .ok st3 => .ok decl st3
    else if st.curtoken.type = TK_CONST then
      match token_accept_any st with
      | .error e => .err e
      | .ok st1 => rec.constDecl st1
    else .err (.parseError st.curtoken.pos st.curtoken.type)
  constDecl := fun st =>
    let t := st.curtoken
    if t.type = TK_IDENTIFIER then
      match token_accept_any st with
      | .error e => .err e
      | .ok st1 =>
        match token_accept TK_IS st1 with
        | .error e => .err e
        | .ok st2 =>
          match rec.expr st2 with
          | .div => .div
          | .err e => .err e
          | .ok exp st3 => .ok (.ConstDeclaration t.val exp) st3
    else .err (.parseError st.curtoken.pos st.curtoken.type)
  command := fun st =>
    let t := st.curtoken
    if t.type = TK_LET then rec.letCmd st
    else if t.type = TK_IDENTIFIER then rec.identifier st
    else if t.type = TK_BEGIN then rec.beginCmd st
    else if t.type = TK_WHILE then
      match token_accept TK_WHILE st with
      | .error e => .err e
      | .ok st1 =>
        match rec.expr st1 with
        | .div => .div
        | .err e => .err e
        | .ok exp st2 =>
          match token_accept TK_DO st2 with
          | .error e => .err e
          | .ok st3 =>
            match rec.command st3 with
            | .div => .div
            | .err e => .err e
            | .ok c st4 => .ok (.WhileCommand exp c) st4
    else if t.type = TK_IF then
      match token_accept TK_IF st with
      | .error e => .err e
      | .ok st1 =>
        match rec.expr st1 with
        | .div => .div
        | .err e => .err e
        | .ok exp st2 =>
          match token_accept_any st2 with
          | .error e => .err e
          | .ok st3 =>
            match rec.command st3 with
            | .div => .div
            | .err e => .err e
            | .ok c1 st4 =>
              match token_accept_any st4 with
              | .error e => .err e
              | .ok st5 =>
                match token_accept TK_ELSE st5 with
                | .error e => .err e
                | .ok st6 =>
                  match rec.command st6 with
                  | .div => .div
                  | .err e => .err e
                  | .ok c2 st7 => .ok (.IfCommand exp c1 c2) st7
    else .err (.parseError st.curtoken.pos st.curtoken.type)
  beginCmd := fun st =>
    match token_accept_any st with
    | .error e => .err e
    | .ok st1 =>
      match rec.command st1 with
      | .div => .div
      | .err e => .err e
      | .ok comm st2 =>
        match rec.beginLoop comm st2 with
        | .div => .div
        | .err e => .err e
        | .ok comm1 st3 =>
          match token_accept TK_END st3 with
          | .error e => .err e
          | .ok st4 => .ok comm1 st4
  beginLoop := fun comm st =>
    if st.curtoken.type = TK_SEMICOLON then
      match token_accept_any st with
      | .error e => .err e
      | .ok st1 =>
        if st1.curtoken.type = TK_END then .ok comm st1
        else
          match rec.command st1 with
          | .div => .div
          | .err e => .err e
          | .ok comm2 st2 => rec.beginLoop (.SequentialCommand comm comm2) st2
    else .ok comm st
  letCmd := fun st =>
    match token_accept_any st with
    | .error e => .err e
    | .ok st1 =>
      match rec.declaration st1 with
      | .div => .div
      | .err e => .err e
      | .ok decl st2 =>
        match rec.letLoop decl st2 with
        | .div => .div
        | .err e => .err e
        | .ok decl1 st3 =>
          match token_accept TK_IN st3 with
          | .error e => .err e
          | .ok st4 =>
            match rec.command st4 with
            | .div => .div
            | .err e => .err e
            | .ok comm st5 => .ok (.LetCommand decl1 comm) st5
  letLoop := fun decl st =>
    if st.curtoken.type = TK_SEMICOLON then
      match token_accept_any st with
      | .error e => .err e
      | .ok st1 =>
        if st1.curtoken.type = TK_IN then .ok decl st1
        else
          match rec.declaration st1 with
          | .div => .div
          | .err e => .err e
          | .ok decl2 st2 => rec.letLoop (.SequentialDeclaration decl decl2) st2
    else .ok decl st
  program := fun st =>
    match rec.command st with
    | .div => .div
    | .err e => .err e
    | .ok c st1 =>
      match token_accept TK_EOT st1 with
      | .error e => .err e
      | .ok st2 => .ok ⟨c⟩ st2

/-- Fueled parser routines. -/
def parserFuel : Nat → ParserFuns
  | 0 => divFuns
  | f + 1 => parserStep (parserFuel f)

/-- parse_expr entry point. -/
def parse_expr (f : Nat) (st : PState) : POut Expr := (parserFuel f).expr st

/-- parse_command entry point. -/
def parse_command (f : Nat) (st : PState) : POut Command := (parserFuel f).command st

/-- parse_declaration entry point. -/
def parse_declaration (f : Nat) (st : PState) : POut Declaration := (parserFuel f).declaration st

/-- Parser.parse from parser.py: parse a Program (a single command
followed by a mandatory EOT).  The Parser constructor indexes tokens[0],
so an empty token list is an IndexError. -/
def parse (f : Nat) (tokens : List Token) : POut Program :=
  match tokens with
  | [] => .err .indexError
  | t0 :: rest => (parserFuel f).program (mkParser t0 rest)

/-!
Code generator, from codegen.py.  The emitted byteplay opcode tuples
become the Instr inductive; the (label, None) pseudo-instruction that
defines a label becomes Instr.LABEL.  Fresh Label() objects become
consecutive naturals drawn from a counter in the generator state; each
gen_ifcommand and gen_whilecommand call allocates three labels (the
third, l3, is created but never used, exactly as in the source).  The
AttributeError Python raises when gen_callcommand reads
tree.expression.variable on a non-variable getint argument is modelled
as a distinct error value.
-/

/-- Emitted instruction, one constructor per byteplay opcode appearing
in codegen.py, plus LABEL for the label-definition pseudo-instruction. -/
inductive Instr where
  | LOAD_CONST (v : PyVal)
  | LOAD_FAST (name : PyVal)
  | STORE_FAST (name : PyVal)
  | LOAD_GLOBAL (name : PyVal)
  | CALL_FUNCTION (argc : Nat)
  | PRINT_ITEM
  | PRINT_NEWLINE
  | BINARY_ADD
  | BINARY_SUBTRACT
  | BINARY_MULTIPLY
  | BINARY_DIVIDE
  | BINARY_MODULO
  | COMPARE_OP (op : String)
  | POP_JUMP_IF_FALSE (label : Nat)
  | JUMP_ABSOLUTE (label : Nat)
  | LABEL (label : Nat)
  | RETURN_VALUE
deriving DecidableEq, Repr

/-- AST node carried by a CodeGenError (codegen.py passes whatever node
or operator value it could not lower). -/
inductive AstNode where
  | cmd (c : Command)
  | expr (e : Expr)
  | decl (d : Declaration)
  | oper (v : PyVal)
deriving DecidableEq, Repr

/-- Generator failure: CodeGenError from codegen.py carrying the
offending node, or the AttributeError raised by the getint branch of
gen_callcommand on a non-variable argument. -/
inductive GenError where
  | codeGenError (node : AstNode)
  | attributeError
deriving DecidableEq, Repr

/-- Code generator state: the instruction list built so far and the
counter supplying fresh label identities. -/
structure CGState where
  code : List Instr
  nextLabel : Nat
deriving DecidableEq, Repr

/-- self.code.append of codegen.py. -/
def emit (st : CGState) (i : Instr) : CGState :=
  { st with code := st.code ++ [i] }

/-- Operator dispatch tail of gen_binaryexpr (after both operands have
been generated). -/
def gen_binaryexpr_tail (op : PyVal) (st : CGState) : Except GenError CGState :=
  if op = .s "+" then .ok (emit st .BINARY_ADD)
  else if op = .s "-" then .ok (emit st .BINARY_SUBTRACT)
  else if op = .s "*" then .ok (emit st .BINARY_MULTIPLY)
  else if op = .s "/" then .ok (emit st .BINARY_DIVIDE)
  else if op = .s ">" then .ok (emit st (.COMPARE_OP ">"))
  else if op = .s "<" then .ok (emit st (.COMPARE_OP "<"))
  else if op = .s "=" then .ok (emit st (.COMPARE_OP "=="))
  else if op = .s "\\" then .ok (emit st .BINARY_MODULO)
  else .error (.codeGenError (.oper op))

/-- gen_expr from codegen.py (with gen_binaryexpr inlined as the operand
recursion followed by gen_binaryexpr_tail). -/
def gen_expr : Expr → CGState → Except GenError CGState
  | .IntegerExpression v, st => .ok (emit st (.LOAD_CONST v))
  | .VnameExpression vn, st => .ok (emit st (.LOAD_FAST vn.identifier))
  | .BinaryExpression e1 op e2, st =>
    match gen_expr e1 st with
    | .error e => .error e
    | .ok st1 =>
      match gen_expr e2 st1 with
      | .error e => .error e
      | .ok st2 => gen_binaryexpr_tail op st2

/-- gen_assigncommand from codegen.py. -/
def gen_assigncommand (vn : Vname) (e : Expr) (st : CGState) : Except GenError CGState :=
  match gen_expr e st with
  | .error er => .error er
  | .ok st1 => .ok (emit st1 (.STORE_FAST vn.identifier))

/-- gen_callcommand from codegen.py.  Note the three behaviours of the
source: getint stores through tree.expression.variable (an
AttributeError when the argument is not a variable reference), putint
accepts only a variable or an integer literal and raises CodeGenError on
anything else, and a call with any other name falls through both
branches and silently emits nothing. -/
def gen_callcommand (identifier : PyVal) (e : Expr) (st : CGState) : Except GenError CGState :=
  if identifier = .s "getint" then
    let st1 := emit (emit st (.LOAD_GLOBAL (.s "input"))) (.CALL_FUNCTION 0)
    match e with
    | .VnameExpression vn => .ok (emit st1 (.STORE_FAST vn.identifier))
    | _ => .error .attributeError
  else if identifier = .s "putint" then
    match e with
    | .VnameExpression vn =>
      .ok (emit (emit (emit (emit st (.LOAD_FAST vn.identifier)) .PRINT_ITEM) .PRINT_NEWLINE)
        (.LOAD_CONST (.n 0)))
    | .IntegerExpression v =>
      .ok (emit (emit (emit (emit st (.LOAD_CONST v)) .PRINT_ITEM) .PRINT_NEWLINE)
        (.LOAD_CONST (.n 0)))
    | _ => .error (.codeGenError (.expr e))
  else .ok st

/-- gen_constdecl and gen_vardecl dispatched by gen_declaration, from
codegen.py; gen_vardecl is pass (its two statements are commented out in
the source). -/
def gen_declaration : Declaration → CGState → Except GenError CGState
  | .ConstDeclaration id1 e, st =>
    match gen_expr e st with
    | .error er => .error er
    | .ok st1 => .ok (emit st1 (.STORE_FAST id1))
  | .VarDeclaration _ _, st => .ok st
  | .SequentialDeclaration d1 d2, st =>
    match gen_declaration d1 st with
    | .error er => .error er
    | .ok st1 => gen_declaration d2 st1

/-- gen_command from codegen.py, with gen_ifcommand and gen_whilecommand
inlined at their dispatch sites.  Each of those allocates labels l1, l2
and an unused l3 from the fresh-label counter before generating. -/
def gen_command : Command → CGState → Except GenError CGState
  | .AssignCommand vn e, st => gen_assigncommand vn e st
  | .CallCommand id1 e, st => gen_callcommand id1 e st
  | .SequentialCommand c1 c2, st =>
    match gen_command c1 st with
    | .error er => .error er
    | .ok st1 => gen_command c2 st1
  | .IfCommand e c1 c2, st =>
    let l1 := st.nextLabel
    let l2 := st.nextLabel + 1
    let st0 : CGState := { st with nextLabel := st.nextLabel + 3 }
    match gen_expr e st0 with
    | .error er => .error er
    | .ok stE =>
      match gen_command c1 (emit stE (.POP_JUMP_IF_FALSE l1)) with
      | .error er => .error er
      | .ok st1 =>
        match gen_command c2 (emit (emit st1 (.JUMP_ABSOLUTE l2)) (.LABEL l1)) with
        | .error er => .error er
        | .ok st2 => .ok (emit st2 (.LABEL l2))
  | .WhileCommand e c, st =>
    let l1 := st.nextLabel
    let l2 := st.nextLabel + 1
    let st0 : CGState := { st with nextLabel := st.nextLabel + 3 }
    match gen_expr e (emit st0 (.LABEL l1)) with
    | .error er => .error er
    | .ok stE =>
      match gen_command c (emit stE (.POP_JUMP_IF_FALSE l2)) with
      | .error er => .error er
      | .ok st1 => .ok (emit (emit st1 (.JUMP_ABSOLUTE l1)) (.LABEL l2))
  | .LetCommand d c, st =>
    match gen_declaration d st with
    | .error er => .error er
    | .ok st1 => gen_command c st1

/-- generate from codegen.py: generate the program body starting from an
empty instruction list, then append the terminal RETURN_VALUE.  The
conversion of the instruction list into a host function object is the
external backend and is outside the pipeline output. -/
def generate (p : Program) : Except GenError (List Instr) :=
  match gen_command p.command { code := [], nextLabel := 0 } with
  | .error er => .error er
  | .ok st => .ok (st.code ++ [.RETURN_VALUE])

/-- Compilation pipeline errors for the three stages. -/
inductive CompError where
  | scanErr (e : ScannerError)
  | parseErr (e : PError)
  | genErr (e : GenError)
deriving DecidableEq, Repr

/-- The three-stage pipeline: scan, then parse, then generate, each
stage aborting the whole compilation on its first error (none again
meaning no result within the fuel bound). -/
def pipeline (f : Nat) (s : String) : Option (Except CompError (List Instr)) :=
  match scan f s with
  | none => none
  | some (.error e) => some (.error (.scanErr e))
  | some (.ok tokens) =>
    match parse f tokens with
    | .div => none
    | .err e => some (.error (.parseErr e))
    | .ok p _ =>
      match generate p with
      | .error e => some (.error (.genErr e))
      | .ok code => some (.ok code)

/-- Does this instruction define label l (the label pseudo-instruction)? -/
def isLabelDef (l : Nat) : Instr → Bool
  | .LABEL m => m == l
  | _ => false

/-- Does this instruction jump to label l (conditionally or not)? -/
def isJumpTo (l : Nat) : Instr → Bool
  | .POP_JUMP_IF_FALSE m => m == l
  | .JUMP_ABSOLUTE m => m == l
  | _ => false

/-- Instructions that neither define nor reference any label. -/
def labelFree : Instr → Bool
  | .LABEL _ => false
  | .POP_JUMP_IF_FALSE _ => false
  | .JUMP_ABSOLUTE _ => false
  | _ => true

/-- Freshness invariant for a code segment emitted while the label
counter advanced from n to m: every label it defines is defined at most
once, every label it defines or references lies in the fresh interval
[n, m), and a label is referenced in the segment exactly when it is
defined in it. -/
def LabelInv (a : List Instr) (n m : Nat) : Prop :=
  ∀ l, a.countP (isLabelDef l) ≤ 1
    ∧ (a.countP (isLabelDef l) ≠ 0 → n ≤ l ∧ l < m)
    ∧ (a.countP (isJumpTo l) ≠ 0 → n ≤ l ∧ l < m)
    ∧ (a.countP (isJumpTo l) ≠ 0 → a.countP (isLabelDef l) ≠ 0)
    ∧ (a.countP (isLabelDef l) ≠ 0 → a.countP (isJumpTo l) ≠ 0)

/-- The fixed instruction block gen_callcommand emits to invoke the
print builtin for a putint call, after the argument has been loaded:
print the value, print a newline, and push the constant 0.  These three
instructions are always emitted together for this builtin. -/
def putint_call_seq : List Instr := [.PRINT_ITEM, .PRINT_NEWLINE, .LOAD_CONST (.n 0)]

/-- A program with an If command, whose generated code exercises the
label discipline. -/
def labelProg : Program :=
  ⟨.IfCommand (.BinaryExpression (.IntegerExpression (.n 1)) (.s "=") (.IntegerExpression (.n 1)))
    (.AssignCommand ⟨.s "x"⟩ (.IntegerExpression (.n 1)))
    (.AssignCommand ⟨.s "x"⟩ (.IntegerExpression (.n 0)))⟩

/-- The code the generator produces for labelProg. -/
def labelProgCode : List Instr :=
  [.LOAD_CONST (.n 1), .LOAD_CONST (.n 1), .COMPARE_OP "==", .POP_JUMP_IF_FALSE 0,
   .LOAD_CONST (.n 1), .STORE_FAST (.s "x"), .JUMP_ABSOLUTE 1, .LABEL 0,
   .LOAD_CONST (.n 0), .STORE_FAST (.s "x"), .LABEL 1, .RETURN_VALUE]

/-!
Lemmas about the scanner at end of input, used for claim C3.
-/

/-- Once the end-of-input sentinel is the current character, skip_comm
never finishes: the sentinel is not a newline and char_take leaves it in
place. -/
theorem skip_comm_eot (f : Nat) :
    ∀ st : ScanState, st.char = none → st.remaining = [] → skip_comm f st = none := by
  induction f with
  | zero => intro st _ _; rfl
  | succ f ih =>
    intro st h1 h2
    rw [skip_comm, if_neg (by simp [h1])]
    exact ih _ (by simp [char_take, h2]) (by simp [char_take, h2])

/-- On the input consisting of the single comment character, skip_comm
never finishes, whatever the fuel. -/
theorem skip_comm_bang (f : Nat) : skip_comm f ⟨[], 1, some '!', false⟩ = none := by
  cases f with
  | zero => rfl
  | succ f =>
    rw [skip_comm, if_neg (by decide)]
    exact skip_comm_eot f _ rfl rfl

/-- scan_token on the scanner state reached after reading the single
comment character never finishes, whatever the fuel. -/
theorem scan_token_bang (f : Nat) : scan_token f ⟨[], 1, some '!', false⟩ = none := by
  cases f with
  | zero => rfl
  | succ f =>
    have h : scan_token (f + 1) ⟨[], 1, some '!', false⟩ =
        match skip_comm f ⟨[], 1, some '!', false⟩ with
        | some st1 => scan_token f st1
        | none => none := rfl
    rw [h, skip_comm_bang]

/-!
Lemmas about the label bookkeeping of the code generator, used for
claim C4.
-/

theorem isLabelDef_false_of_labelFree {i : Instr} (h : labelFree i = true) (l : Nat) :
    isLabelDef l i = false := by
  cases i <;> simp_all [labelFree, isLabelDef]

theorem isJumpTo_false_of_labelFree {i : Instr} (h : labelFree i = true) (l : Nat) :
    isJumpTo l i = false := by
  cases i <;> simp_all [labelFree, isJumpTo]

theorem countP_labelDef_zero {a : List Instr} (h : ∀ i ∈ a, labelFree i = true) (l : Nat) :
    a.countP (isLabelDef l) = 0 :=
  List.countP_eq_zero.mpr fun i hi => by simp [isLabelDef_false_of_labelFree (h i hi) l]

theorem countP_jumpTo_zero {a : List Instr} (h : ∀ i ∈ a, labelFree i = true) (l : Nat) :
    a.countP (isJumpTo l) = 0 :=
  List.countP_eq_zero.mpr fun i hi => by simp [isJumpTo_false_of_labelFree (h i hi) l]

@[simp] theorem emit_nextLabel (st : CGState) (i : Instr) : (emit st i).nextLabel = st.nextLabel := rfl

@[simp] theorem emit_code (st : CGState) (i : Instr) : (emit st i).code = st.code ++ [i] := rfl

theorem labelInv_of_labelFree {a : List Instr} (h : ∀ i ∈ a, labelFree i = true) (n : Nat) :
    LabelInv a n n := by
  intro l
  rw [countP_labelDef_zero h, countP_jumpTo_zero h]
  simp

theorem labelInv_append {a b : List Instr} {n m k : Nat} (hnm : n ≤ m) (hmk : m ≤ k)
    (ha : LabelInv a n m) (hb : LabelInv b m k) : LabelInv (a ++ b) n k := by
  intro l
  obtain ⟨A1, A2, A3, A4, A5⟩ := ha l
  obtain ⟨B1, B2, B3, B4, B5⟩ := hb l
  simp only [List.countP_append]
  omega

/-- Successful gen_binaryexpr operator dispatch emits exactly one
label-free instruction. -/
theorem gen_binaryexpr_tail_spec {op : PyVal} {st st' : CGState}
    (h : gen_binaryexpr_tail op st = .ok st') :
    ∃ i, labelFree i = true ∧ st' = emit st i := by
  unfold gen_binaryexpr_tail at h
  split_ifs at h <;> simp only [Except.ok.injEq] at h <;> (subst h; refine ⟨_, ?_, rfl⟩; rfl)

/-- Successful expression generation appends only label-free
instructions and leaves the label counter unchanged. -/
theorem gen_expr_spec (e : Expr) : ∀ st st' : CGState, gen_expr e st = .ok st' →
    st'.nextLabel = st.nextLabel ∧
      ∃ a, st'.code = st.code ++ a ∧ ∀ i ∈ a, labelFree i = true := by
  induction e with
  | IntegerExpression v =>
    intro st st' h
    simp only [gen_expr, Except.ok.injEq] at h
    subst h
    exact ⟨rfl, [.LOAD_CONST v], rfl, by simp [labelFree]⟩
  | VnameExpression vn =>
    intro st st' h
    simp only [gen_expr, Except.ok.injEq] at h
    subst h
    exact ⟨rfl, [.LOAD_FAST vn.identifier], rfl, by simp [labelFree]⟩
  | BinaryExpression e1 op e2 ih1 ih2 =>
    intro st st' h
    cases he1 : gen_expr e1 st with
    | error er => simp only [gen_expr, he1] at h; exact Except.noConfusion h
    | ok stA =>
      simp only [gen_expr, he1] at h
      cases he2 : gen_expr e2 stA with
      | error er => simp only [he2] at h; exact Except.noConfusion h
      | ok stB =>
        simp only [he2] at h
        obtain ⟨i, hi, rfl⟩ := gen_binaryexpr_tail_spec h
        obtain ⟨hn1, a1, hc1, hf1⟩ := ih1 st stA he1
        obtain ⟨hn2, a2, hc2, hf2⟩ := ih2 stA stB he2
        refine ⟨by simp [hn1, hn2], a1 ++ a2 ++ [i], ?_, ?_⟩
        · simp [hc2, hc1, List.append_assoc]
        · intro j hj
          simp only [List.mem_append, List.mem_singleton] at hj
          rcases hj with (hj | hj) | hj
          · exact hf1 j hj
          · exact hf2 j hj
          · rw [hj]; exact hi

/-- Successful assignment generation appends only label-free
instructions and leaves the label counter unchanged. -/
theorem gen_assigncommand_spec {vn : Vname} {e : Expr} {st st' : CGState}
    (h : gen_assigncommand vn e st = .ok st') :
    st'.nextLabel = st.nextLabel ∧
      ∃ a, st'.code = st.code ++ a ∧ ∀ i ∈ a, labelFree i = true := by
  unfold gen_assigncommand at h
  cases he : gen_expr e st with
  | error er => rw [he] at h; exact Except.noConfusion h
  | ok stA =>
    rw [he] at h
    simp only [Except.ok.injEq] at h
    subst h
    obtain ⟨hn, a, hc, hf⟩ := gen_expr_spec e st stA he
    refine ⟨by simp [hn], a ++ [.STORE_FAST vn.identifier], by simp [hc, List.append_assoc], ?_⟩
    intro j hj
    simp only [List.mem_append, List.mem_singleton] at hj
    rcases hj with hj | hj
    · exact hf j hj
    · rw [hj]; rfl

/-- Successful call generation appends only label-free instructions and
leaves the label counter unchanged. -/
theorem gen_callcommand_spec {id1 : PyVal} {e : Expr} {st st' : CGState}
    (h : gen_callcommand id1 e st = .ok st') :
    st'.nextLabel = st.nextLabel ∧
      ∃ a, st'.code = st.code ++ a ∧ ∀ i ∈ a, labelFree i = true := by
  simp only [gen_callcommand] at h
  split_ifs at h
  · cases e with
    | VnameExpression vn =>
      simp only [Except.ok.injEq] at h
      subst h
      exact ⟨rfl, [.LOAD_GLOBAL (.s "input"), .CALL_FUNCTION 0, .STORE_FAST vn.identifier],
        by simp [List.append_assoc], by simp [labelFree]⟩
    | IntegerExpression v => exact Except.noConfusion h
    | BinaryExpression e1 op e2 => exact Except.noConfusion h
  · cases e with
    | VnameExpression vn =>
      simp only [Except.ok.injEq] at h
      subst h
      exact ⟨rfl, [.LOAD_FAST vn.identifier, .PRINT_ITEM, .PRINT_NEWLINE, .LOAD_CONST (.n 0)],
        by simp [List.append_assoc], by simp [labelFree]⟩
    | IntegerExpression v =>
      simp only [Except.ok.injEq] at h
      subst h
      exact ⟨rfl, [.LOAD_CONST v, .PRINT_ITEM, .PRINT_NEWLINE, .LOAD_CONST (.n 0)],
        by simp [List.append_assoc], by simp [labelFree]⟩
    | BinaryExpression e1 op e2 => exact Except.noConfusion h
  · simp only [Except.ok.injEq] at h
    subst h
    exact ⟨rfl, [], by simp, by simp⟩

/-- Successful declaration generation appends only label-free
instructions and leaves the label counter unchanged. -/
theorem gen_declaration_spec (d : Declaration) : ∀ st st' : CGState,
    gen_declaration d st = .ok st' →
    st'.nextLabel = st.nextLabel ∧
      ∃ a, st'.code = st.code ++ a ∧ ∀ i ∈ a, labelFree i = true := by
  induction d with
  | ConstDeclaration id1 e =>
    intro st st' h
    simp only [gen_declaration] at h
    cases he : gen_expr e st with
    | error er => rw [he] at h; exact Except.noConfusion h
    | ok stA =>
      rw [he] at h
      simp only [Except.ok.injEq] at h
      subst h
      obtain ⟨hn, a, hc, hf⟩ := gen_expr_spec e st stA he
      refine ⟨by simp [hn], a ++ [.STORE_FAST id1], by simp [hc, List.append_assoc], ?_⟩
      intro j hj
      simp only [List.mem_append, List.mem_singleton] at hj
      rcases hj with hj | hj
      · exact hf j hj
      · rw [hj]; rfl
  | VarDeclaration id1 td =>
    intro st st' h
    simp only [gen_declaration, Except.ok.injEq] at h
    subst h
    exact ⟨rfl, [], by simp, by simp⟩
  | SequentialDeclaration d1 d2 ih1 ih2 =>
    intro st st' h
    cases h1 : gen_declaration d1 st with
    | error er => simp only [gen_declaration, h1] at h; exact Except.noConfusion h
    | ok stA =>
      simp only [gen_declaration, h1] at h
      obtain ⟨hn1, a1, hc1, hf1⟩ := ih1 st stA h1
      obtain ⟨hn2, a2, hc2, hf2⟩ := ih2 stA st' h
      refine ⟨by simp [hn1, hn2], a1 ++ a2, by simp [hc2, hc1, List.append_assoc], ?_⟩
      intro j hj
      simp only [List.mem_append] at hj
      rcases hj with hj | hj
      · exact hf1 j hj
      · exact hf2 j hj

@[simp] theorem isLabelDef_label (l m : Nat) : isLabelDef l (.LABEL m) = (m == l) := rfl

@[simp] theorem isLabelDef_pjif (l m : Nat) : isLabelDef l (.POP_JUMP_IF_FALSE m) = false := rfl

@[simp] theorem isLabelDef_jump (l m : Nat) : isLabelDef l (.JUMP_ABSOLUTE m) = false := rfl

@[simp] theorem isLabelDef_ret (l : Nat) : isLabelDef l .RETURN_VALUE = false := rfl

@[simp] theorem isJumpTo_label (l m : Nat) : isJumpTo l (.LABEL m) = false := rfl

@[simp] theorem isJumpTo_pjif (l m : Nat) : isJumpTo l (.POP_JUMP_IF_FALSE m) = (m == l) := rfl

@[simp] theorem isJumpTo_jump (l m : Nat) : isJumpTo l (.JUMP_ABSOLUTE m) = (m == l) := rfl

@[simp] theorem isJumpTo_ret (l : Nat) : isJumpTo l .RETURN_VALUE = false := rfl

/-- Successful command generation appends a code segment satisfying the
label freshness invariant over the interval the label counter moved
through. -/
theorem gen_command_inv (c : Command) : ∀ st st' : CGState, gen_command c st = .ok st' →
    st.nextLabel ≤ st'.nextLabel ∧
      ∃ a, st'.code = st.code ++ a ∧ LabelInv a st.nextLabel st'.nextLabel := by
  induction c with
  | AssignCommand vn e =>
    intro st st' h
    obtain ⟨hn, a, hc, hf⟩ := gen_assigncommand_spec (h := h)
    exact ⟨by omega, a, hc, by rw [hn]; exact labelInv_of_labelFree hf _⟩
  | CallCommand id1 e =>
    intro st st' h
    obtain ⟨hn, a, hc, hf⟩ := gen_callcommand_spec (h := h)
    exact ⟨by omega, a, hc, by rw [hn]; exact labelInv_of_labelFree hf _⟩
  | SequentialCommand c1 c2 ih1 ih2 =>
    intro st st' h
    cases h1 : gen_command c1 st with
    | error er => simp only [gen_command, h1] at h; exact Except.noConfusion h
    | ok stA =>
      simp only [gen_command, h1] at h
      obtain ⟨hle1, a1, hc1, hi1⟩ := ih1 st stA h1
      obtain ⟨hle2, a2, hc2, hi2⟩ := ih2 stA st' h
      exact ⟨le_trans hle1 hle2, a1 ++ a2, by simp [hc2, hc1, List.append_assoc],
        labelInv_append hle1 hle2 hi1 hi2⟩
  | LetCommand d c ih =>
    intro st st' h
    cases h1 : gen_declaration d st with
    | error er => simp only [gen_command, h1] at h; exact Except.noConfusion h
    | ok stA =>
      simp only [gen_command, h1] at h
      obtain ⟨hn1, a1, hc1, hf1⟩ := gen_declaration_spec d st stA h1
      obtain ⟨hle2, a2, hc2, hi2⟩ := ih stA st' h
      refine ⟨by omega, a1 ++ a2, by simp [hc2, hc1, List.append_assoc], ?_⟩
      refine labelInv_append (le_of_eq hn1.symm) hle2 ?_ hi2
      rw [hn1]
      exact labelInv_of_labelFree hf1 _
  | IfCommand e c1 c2 ih1 ih2 =>
    intro st st' h
    cases hE : gen_expr e { st with nextLabel := st.nextLabel + 3 } with
    | error er => simp only [gen_command, hE] at h; exact Except.noConfusion h
    | ok stE =>
      simp only [gen_command, hE] at h
      cases h1 : gen_command c1 (emit stE (.POP_JUMP_IF_FALSE st.nextLabel)) with
      | error er => simp only [h1] at h; exact Except.noConfusion h
      | ok stA =>
        simp only [h1] at h
        cases h2 : gen_command c2
            (emit (emit stA (.JUMP_ABSOLUTE (st.nextLabel + 1))) (.LABEL st.nextLabel)) with
        | error er => simp only [h2] at h; exact Except.noConfusion h
        | ok stB =>
          simp only [h2, Except.ok.injEq] at h
          subst h
          obtain ⟨hnE, aE, hcE, hfE⟩ := gen_expr_spec e _ _ hE
          have hnE2 : stE.nextLabel = st.nextLabel + 3 := hnE
          have hcE2 : stE.code = st.code ++ aE := hcE
          obtain ⟨hle1, a1, hc1, hi1⟩ := ih1 _ _ h1
          have hle1a : stE.nextLabel ≤ stA.nextLabel := hle1
          have hc1a : stA.code = (stE.code ++ [.POP_JUMP_IF_FALSE st.nextLabel]) ++ a1 := hc1
          have hi1a : LabelInv a1 stE.nextLabel stA.nextLabel := hi1
          obtain ⟨hle2, a2, hc2, hi2⟩ := ih2 _ _ h2
          have hle2a : stA.nextLabel ≤ stB.nextLabel := hle2
          have hc2a : stB.code =
              ((stA.code ++ [.JUMP_ABSOLUTE (st.nextLabel + 1)]) ++ [.LABEL st.nextLabel]) ++ a2 :=
            hc2
          have hi2a : LabelInv a2 stA.nextLabel stB.nextLabel := hi2
          refine ⟨by simp only [emit_nextLabel]; omega,
            aE ++ [.POP_JUMP_IF_FALSE st.nextLabel] ++ a1 ++
              [.JUMP_ABSOLUTE (st.nextLabel + 1), .LABEL st.nextLabel] ++ a2 ++
              [.LABEL (st.nextLabel + 1)], ?_, ?_⟩
          · simp only [emit_code]
            rw [hc2a, hc1a, hcE2]
            simp [List.append_assoc]
          · simp only [emit_nextLabel]
            intro l
            obtain ⟨A1, A2, A3, A4, A5⟩ := hi1a l
            obtain ⟨B1, B2, B3, B4, B5⟩ := hi2a l
            have ZD := countP_labelDef_zero hfE l
            have ZJ := countP_jumpTo_zero hfE l
            simp only [List.countP_append, List.countP_cons, List.countP_nil, ZD, ZJ,
              isLabelDef_label, isLabelDef_pjif, isLabelDef_jump,
              isJumpTo_label, isJumpTo_pjif, isJumpTo_jump, beq_iff_eq,
              Bool.false_eq_true, if_false]
            split_ifs <;> omega
  | WhileCommand e c ih =>
    intro st st' h
    cases hE : gen_expr e (emit { st with nextLabel := st.nextLabel + 3 } (.LABEL st.nextLabel)) with
    | error er => simp only [gen_command, hE] at h; exact Except.noConfusion h
    | ok stE =>
      simp only [gen_command, hE] at h
      cases h1 : gen_command c (emit stE (.POP_JUMP_IF_FALSE (st.nextLabel + 1))) with
      | error er => simp only [h1] at h; exact Except.noConfusion h
      | ok stA =>
        simp only [h1, Except.ok.injEq] at h
        subst h
        obtain ⟨hnE, aE, hcE, hfE⟩ := gen_expr_spec e _ _ hE
        have hnE2 : stE.nextLabel = st.nextLabel + 3 := hnE
        have hcE2 : stE.code = (st.code ++ [.LABEL st.nextLabel]) ++ aE := hcE
        obtain ⟨hle1, a1, hc1, hi1⟩ := ih _ _ h1
        have hle1a : stE.nextLabel ≤ stA.nextLabel := hle1
        have hc1a : stA.code = (stE.code ++ [.POP_JUMP_IF_FALSE (st.nextLabel + 1)]) ++ a1 := hc1
        have hi1a : LabelInv a1 stE.nextLabel stA.nextLabel := hi1
        refine ⟨by simp only [emit_nextLabel]; omega,
          [.LABEL st.nextLabel] ++ aE ++ [.POP_JUMP_IF_FALSE (st.nextLabel + 1)] ++ a1 ++
            [.JUMP_ABSOLUTE st.nextLabel, .LABEL (st.nextLabel + 1)], ?_, ?_⟩
        · simp only [emit_code]
          rw [hc1a, hcE2]
          simp [List.append_assoc]
        · simp only [emit_nextLabel]
          intro l
          obtain ⟨A1, A2, A3, A4, A5⟩ := hi1a l
          have ZD := countP_labelDef_zero hfE l
          have ZJ := countP_jumpTo_zero hfE l
          simp only [List.countP_append, List.countP_cons, List.countP_nil, ZD, ZJ,
            isLabelDef_label, isLabelDef_pjif, isLabelDef_jump,
            isJumpTo_label, isJumpTo_pjif, isJumpTo_jump, beq_iff_eq,
            Bool.false_eq_true, if_false]
          split_ifs <;> omega

/-- C1 (counterexample): for the exact source text of the claim,
without any token between the then-branch command and the else keyword,
the pipeline does not succeed: the if production consumes the token
after the then-branch unconditionally (here the else keyword itself) and
then requires an else, so parsing fails with a ParseError at the second
putint identifier (offset 27). -/
theorem c1_missing_separator_counterexample :
    pipeline 200 "if 1=1 then putint(1) else putint(0)" =
      some (.error (.parseErr (.parseError 27 TK_IDENTIFIER))) := by rfl

/-- C1 (amended): with a separator token between the then-branch and
else, as the unconditional token consumption of the if production
requires, the pipeline succeeds and produces exactly: the condition code
load-constant(1), load-constant(1), binary-op(=), then
jump-if-false(L1), the then-branch instructions, jump(L2), label(L1),
the else-branch instructions, label(L2), followed by the program
terminal return. -/
theorem c1_if_generation :
    pipeline 200 "if 1=1 then putint(1); else putint(0)" =
      some (.ok ([.LOAD_CONST (.n 1), .LOAD_CONST (.n 1), .COMPARE_OP "=="] ++
        [.POP_JUMP_IF_FALSE 0] ++
        [.LOAD_CONST (.n 1), .PRINT_ITEM, .PRINT_NEWLINE, .LOAD_CONST (.n 0)] ++
        [.JUMP_ABSOLUTE 1, .LABEL 0] ++
        [.LOAD_CONST (.n 0), .PRINT_ITEM, .PRINT_NEWLINE, .LOAD_CONST (.n 0)] ++
        [.LABEL 1] ++ [.RETURN_VALUE])) := by rfl

/-- C2 (counterexample): a Call command whose name is neither getint nor
putint does not raise CodeGenError: it falls through both branches of
gen_callcommand and generation succeeds silently, emitting no
instructions for the call; and a getint call whose argument is an
integer literal fails with an attribute error (reading
tree.expression.variable), not with CodeGenError. -/
theorem c2_callcommand_counterexample :
    generate ⟨.CallCommand (.s "noop") (.IntegerExpression (.n 1))⟩ = .ok [.RETURN_VALUE]
    ∧ generate ⟨.CallCommand (.s "getint") (.IntegerExpression (.n 1))⟩ =
        .error .attributeError := ⟨rfl, rfl⟩

/-- C2 (amended): gen_callcommand on a Call whose name is neither getint
nor putint succeeds silently with the state unchanged; a getint call
whose argument is not a bare variable reference fails with an attribute
error rather than CodeGenError; a putint call with a compound argument
fails with CodeGenError carrying the argument node. -/
theorem c2_callcommand_amended (identifier : PyVal) (e : Expr) (st : CGState) :
    (identifier ≠ .s "getint" → identifier ≠ .s "putint" →
      gen_callcommand identifier e st = .ok st)
    ∧ (∀ v, gen_callcommand (.s "getint") (.IntegerExpression v) st = .error .attributeError)
    ∧ (∀ e1 op e2, gen_callcommand (.s "getint") (.BinaryExpression e1 op e2) st =
        .error .attributeError)
    ∧ (∀ e1 op e2, gen_callcommand (.s "putint") (.BinaryExpression e1 op e2) st =
        .error (.codeGenError (.expr (.BinaryExpression e1 op e2)))) := by
  refine ⟨?_, fun v => rfl, fun e1 op e2 => rfl, fun e1 op e2 => rfl⟩
  intro h1 h2
  unfold gen_callcommand
  rw [if_neg h1, if_neg h2]

/-- C2 (witness): instantiating the amended theorem at a concrete
unknown call name. -/
theorem c2_callcommand_amended_witness :
    gen_callcommand (.s "noop") (.IntegerExpression (.n 1)) ⟨[], 0⟩ = .ok ⟨[], 0⟩ :=
  (c2_callcommand_amended (.s "noop") (.IntegerExpression (.n 1)) ⟨[], 0⟩).1
    (by decide) (by decide)

/-- C3: on the input consisting of a comment marker not followed by any
end-of-line character, the scanner does not terminate: for every fuel
bound the fueled scan fails to produce any result, because skip_comm
keeps taking the end-of-input sentinel, which is never a newline.  The
claimed invariant (every scan yields a finite EndOfInput-terminated
token sequence) is the documented intent; the code loops forever on this
input. -/
theorem c3_scan_comment_no_newline_diverges (f : Nat) : scan f "!" = none := by
  cases f with
  | zero => rfl
  | succ f =>
    have h : scan (f + 1) "!" =
        match scan_token f ⟨[], 1, some '!', false⟩ with
        | none => none
        | some (.error e) => some (.error e)
        | some (.ok (t, st1)) =>
          if t.type = TK_EOT then some (.ok ([] ++ [t]))
          else scan_loop f st1 ([] ++ [t]) := rfl
    rw [h, scan_token_bang]

/-- C4: for every Program the generator succeeds on, every label that
occurs in the emitted instruction sequence (as a definition or as a jump
target) is defined exactly once, every jump and jump-if-false targets a
defined label, and every defined label is the target of at least one
jump or jump-if-false. -/
theorem c4_generate_label_discipline (p : Program) (code : List Instr) (l : Nat)
    (h : generate p = .ok code) :
    ((code.countP (isLabelDef l) ≠ 0 ∨ code.countP (isJumpTo l) ≠ 0) →
      code.countP (isLabelDef l) = 1)
    ∧ (code.countP (isJumpTo l) ≠ 0 → code.countP (isLabelDef l) ≠ 0)
    ∧ (code.countP (isLabelDef l) ≠ 0 → code.countP (isJumpTo l) ≠ 0) := by
  cases hg : gen_command p.command { code := [], nextLabel := 0 } with
  | error er => simp only [generate, hg] at h; exact Except.noConfusion h
  | ok st =>
    simp only [generate, hg, Except.ok.injEq] at h
    subst h
    obtain ⟨hle, a, hc, hinv⟩ := gen_command_inv p.command _ _ hg
    have hc2 : st.code = a := hc
    obtain ⟨A1, A2, A3, A4, A5⟩ := hinv l
    rw [hc2]
    simp only [List.countP_append, List.countP_cons, List.countP_nil,
      isLabelDef_ret, isJumpTo_ret, Bool.false_eq_true, if_false]
    omega

/-- C4 (witness): the label discipline at the generated code of a
concrete If program, at label 0. -/
theorem c4_generate_label_discipline_witness :
    ((labelProgCode.countP (isLabelDef 0) ≠ 0 ∨ labelProgCode.countP (isJumpTo 0) ≠ 0) →
      labelProgCode.countP (isLabelDef 0) = 1)
    ∧ (labelProgCode.countP (isJumpTo 0) ≠ 0 → labelProgCode.countP (isLabelDef 0) ≠ 0)
    ∧ (labelProgCode.countP (isLabelDef 0) ≠ 0 → labelProgCode.countP (isJumpTo 0) ≠ 0) :=
  c4_generate_label_discipline labelProg labelProgCode 0 (by rfl)

/-- C5: the expression parser implements three left-associative
precedence tiers.  For arbitrary identifiers a, b, c: a<b<c parses to
BinaryOp(BinaryOp(a,<,b),<,c); a+b*c parses with b*c as the right
operand of +; a-b-c and a*b/c chain left within their tiers; and a=b+c
parses with b+c below the comparison. -/
theorem c5_expression_precedence (a b c : String) :
    (∃ st, parse_expr 20 (mkParser ⟨TK_IDENTIFIER, .s a, 0⟩
        [⟨TK_OPERATOR, .s "<", 1⟩, ⟨TK_IDENTIFIER, .s b, 2⟩,
         ⟨TK_OPERATOR, .s "<", 3⟩, ⟨TK_IDENTIFIER, .s c, 4⟩, ⟨TK_EOT, .n 0, 5⟩]) =
      .ok (.BinaryExpression
            (.BinaryExpression (.VnameExpression ⟨.s a⟩) (.s "<") (.VnameExpression ⟨.s b⟩))
            (.s "<") (.VnameExpression ⟨.s c⟩)) st)
    ∧ (∃ st, parse_expr 20 (mkParser ⟨TK_IDENTIFIER, .s a, 0⟩
        [⟨TK_OPERATOR, .s "+", 1⟩, ⟨TK_IDENTIFIER, .s b, 2⟩,
         ⟨TK_OPERATOR, .s "*", 3⟩, ⟨TK_IDENTIFIER, .s c, 4⟩, ⟨TK_EOT, .n 0, 5⟩]) =
      .ok (.BinaryExpression (.VnameExpression ⟨.s a⟩) (.s "+")
            (.BinaryExpression (.VnameExpression ⟨.s b⟩) (.s "*")
              (.VnameExpression ⟨.s c⟩))) st)
    ∧ (∃ st, parse_expr 20 (mkParser ⟨TK_IDENTIFIER, .s a, 0⟩
        [⟨TK_OPERATOR, .s "-", 1⟩, ⟨TK_IDENTIFIER, .s b, 2⟩,
         ⟨TK_OPERATOR, .s "-", 3⟩, ⟨TK_IDENTIFIER, .s c, 4⟩, ⟨TK_EOT, .n 0, 5⟩]) =
      .ok (.BinaryExpression
            (.BinaryExpression (.VnameExpression ⟨.s a⟩) (.s "-") (.VnameExpression ⟨.s b⟩))
            (.s "-") (.VnameExpression ⟨.s c⟩)) st)
    ∧ (∃ st, parse_expr 20 (mkParser ⟨TK_IDENTIFIER, .s a, 0⟩
        [⟨TK_OPERATOR, .s "*", 1⟩, ⟨TK_IDENTIFIER, .s b, 2⟩,
         ⟨TK_OPERATOR, .s "/", 3⟩, ⟨TK_IDENTIFIER, .s c, 4⟩, ⟨TK_EOT, .n 0, 5⟩]) =
      .ok (.BinaryExpression
            (.BinaryExpression (.VnameExpression ⟨.s a⟩) (.s "*") (.VnameExpression ⟨.s b⟩))
            (.s "/") (.VnameExpression ⟨.s c⟩)) st)
    ∧ (∃ st, parse_expr 20 (mkParser ⟨TK_IDENTIFIER, .s a, 0⟩
        [⟨TK_OPERATOR, .s "=", 1⟩, ⟨TK_IDENTIFIER, .s b, 2⟩,
         ⟨TK_OPERATOR, .s "+", 3⟩, ⟨TK_IDENTIFIER, .s c, 4⟩, ⟨TK_EOT, .n 0, 5⟩]) =
      .ok (.BinaryExpression (.VnameExpression ⟨.s a⟩) (.s "=")
            (.BinaryExpression (.VnameExpression ⟨.s b⟩) (.s "+")
              (.VnameExpression ⟨.s c⟩))) st) :=
  ⟨⟨_, rfl⟩, ⟨_, rfl⟩, ⟨_, rfl⟩, ⟨_, rfl⟩, ⟨_, rfl⟩⟩

/-- C6: for a putint call whose argument is an integer literal or a bare
variable reference, gen_callcommand emits exactly the instructions
gen_expr would emit for the argument, followed by the fixed
print-builtin invocation block, and nothing else. -/
theorem c6_putint_lowering (st : CGState) :
    (∀ v, gen_expr (.IntegerExpression v) st = .ok (emit st (.LOAD_CONST v)) ∧
      gen_callcommand (.s "putint") (.IntegerExpression v) st =
        .ok { st with code := st.code ++ [.LOAD_CONST v] ++ putint_call_seq })
    ∧ (∀ vn, gen_expr (.VnameExpression vn) st = .ok (emit st (.LOAD_FAST vn.identifier)) ∧
      gen_callcommand (.s "putint") (.VnameExpression vn) st =
        .ok { st with code := st.code ++ [.LOAD_FAST vn.identifier] ++ putint_call_seq }) := by
  constructor
  · intro v
    refine ⟨rfl, ?_⟩
    have h1 : gen_callcommand (.s "putint") (.IntegerExpression v) st =
        .ok (emit (emit (emit (emit st (.LOAD_CONST v)) .PRINT_ITEM) .PRINT_NEWLINE)
          (.LOAD_CONST (.n 0))) := rfl
    rw [h1]
    simp [emit, putint_call_seq, List.append_assoc]
  · intro vn
    refine ⟨rfl, ?_⟩
    have h1 : gen_callcommand (.s "putint") (.VnameExpression vn) st =
        .ok (emit (emit (emit (emit st (.LOAD_FAST vn.identifier)) .PRINT_ITEM) .PRINT_NEWLINE)
          (.LOAD_CONST (.n 0))) := rfl
    rw [h1]
    simp [emit, putint_call_seq, List.append_assoc]

/-- C7: a putint call whose argument is a compound (binary) expression
is rejected by the generator with CodeGenError carrying the argument
node, for every such argument; yet the same source text putint(1+2)
scans and parses successfully, and the full pipeline on it fails exactly
with that CodeGenError. -/
theorem c7_putint_compound_rejected :
    (∀ (e1 : Expr) (op : PyVal) (e2 : Expr) (st : CGState),
      gen_callcommand (.s "putint") (.BinaryExpression e1 op e2) st =
        .error (.codeGenError (.expr (.BinaryExpression e1 op e2))))
    ∧ scan 200 "putint(1+2)" = some (.ok
        [⟨TK_IDENTIFIER, .s "putint", 0⟩, ⟨TK_LPAREN, .n 0, 6⟩, ⟨TK_INTLITERAL, .n 1, 7⟩,
         ⟨TK_OPERATOR, .s "+", 8⟩, ⟨TK_INTLITERAL, .n 2, 9⟩, ⟨TK_RPAREN, .n 0, 10⟩,
         ⟨TK_EOT, .n 0, 11⟩])
    ∧ (∃ st, parse 200
        [⟨TK_IDENTIFIER, .s "putint", 0⟩, ⟨TK_LPAREN, .n 0, 6⟩, ⟨TK_INTLITERAL, .n 1, 7⟩,
         ⟨TK_OPERATOR, .s "+", 8⟩, ⟨TK_INTLITERAL, .n 2, 9⟩, ⟨TK_RPAREN, .n 0, 10⟩,
         ⟨TK_EOT, .n 0, 11⟩] =
        .ok ⟨.CallCommand (.s "putint")
          (.BinaryExpression (.IntegerExpression (.n 1)) (.s "+")
            (.IntegerExpression (.n 2)))⟩ st)
    ∧ pipeline 200 "putint(1+2)" = some (.error (.genErr (.codeGenError (.expr
        (.BinaryExpression (.IntegerExpression (.n 1)) (.s "+")
          (.IntegerExpression (.n 2))))))) :=
  ⟨fun _ _ _ _ => rfl, rfl, ⟨_, rfl⟩, rfl⟩

/-- C8: scanning begin:=end yields the Becomes token at offset 5 (the
position of the colon character), and parsing then fails with a
ParseError at exactly that position whose found kind is Becomes. -/
theorem c8_begin_becomes_parse_error :
    scan 200 "begin:=end" = some (.ok
      [⟨TK_BEGIN, .n 0, 0⟩, ⟨TK_BECOMES, .n 0, 5⟩, ⟨TK_END, .n 0, 7⟩, ⟨TK_EOT, .n 0, 10⟩])
    ∧ parse 200
        [⟨TK_BEGIN, .n 0, 0⟩, ⟨TK_BECOMES, .n 0, 5⟩, ⟨TK_END, .n 0, 7⟩, ⟨TK_EOT, .n 0, 10⟩] =
      .err (.parseError 5 TK_BECOMES) := ⟨rfl, rfl⟩

/-- C9: compiling the let program succeeds with exactly
load-constant(3), store-local(x) and the program terminal return; the
VarDecl generates nothing (for any VarDecl and any state), and the whole
let command generates exactly the two instructions of the assignment. -/
theorem c9_let_vardecl_assign :
    pipeline 200 "let var x: Integer in x := 3" =
      some (.ok [.LOAD_CONST (.n 3), .STORE_FAST (.s "x"), .RETURN_VALUE])
    ∧ (∀ (id1 : PyVal) (td : TypeDenoter) (st : CGState),
        gen_declaration (.VarDeclaration id1 td) st = .ok st)
    ∧ (∀ st : CGState, gen_command
        (.LetCommand (.VarDeclaration (.s "x") ⟨.s "Integer"⟩)
          (.AssignCommand ⟨.s "x"⟩ (.IntegerExpression (.n 3)))) st =
        .ok { st with code := st.code ++ [.LOAD_CONST (.n 3), .STORE_FAST (.s "x")] }) := by
  refine ⟨rfl, fun id1 td st => rfl, fun st => ?_⟩
  have h1 : gen_command
      (.LetCommand (.VarDeclaration (.s "x") ⟨.s "Integer"⟩)
        (.AssignCommand ⟨.s "x"⟩ (.IntegerExpression (.n 3)))) st =
      .ok (emit (emit st (.LOAD_CONST (.n 3))) (.STORE_FAST (.s "x"))) := rfl
  rw [h1]
  simp [emit, List.append_assoc]

/-- C10: in a var declaration the parser accepts any token whatsoever in
the type-denoter position: for every token t other than end-of-text,
parsing var x : t builds a VarDecl whose type denoter carries t's value,
consumes t unconditionally, and raises no ParseError. -/
theorem c10_var_type_denoter_any_token (x : String) (t r : Token) (rest : List Token)
    (p0 p1 p2 : Nat) (h : t.type ≠ TK_EOT) :
    parse_declaration 1 (mkParser ⟨TK_VAR, .n 0, p0⟩
        ([⟨TK_IDENTIFIER, .s x, p1⟩, ⟨TK_COLON, .n 0, p2⟩, t, r] ++ rest)) =
      .ok (.VarDeclaration (.s x) ⟨t.val⟩)
        ⟨⟨TK_VAR, .n 0, p0⟩ :: ([⟨TK_IDENTIFIER, .s x, p1⟩, ⟨TK_COLON, .n 0, p2⟩, t, r] ++ rest),
          4, r⟩ := by
  show (parserStep (parserFuel 0)).declaration (mkParser ⟨TK_VAR, .n 0, p0⟩
      ([⟨TK_IDENTIFIER, .s x, p1⟩, ⟨TK_COLON, .n 0, p2⟩, t, r] ++ rest)) = _
  simp only [TK_EOT] at h
  simp [parserStep, mkParser, parse_var, token_accept, token_accept_any, h, List.get?,
    TK_VAR, TK_EOT, TK_IDENTIFIER, TK_COLON]

/-- C10 (witness): the var declaration parse with an integer literal in
the type-denoter position. -/
theorem c10_var_type_denoter_any_token_witness :
    parse_declaration 1 (mkParser ⟨TK_VAR, .n 0, 0⟩
        ([⟨TK_IDENTIFIER, .s "x", 1⟩, ⟨TK_COLON, .n 0, 2⟩, ⟨TK_INTLITERAL, .n 7, 3⟩,
          ⟨TK_EOT, .n 0, 4⟩] ++ [])) =
      .ok (.VarDeclaration (.s "x") ⟨.n 7⟩)
        ⟨⟨TK_VAR, .n 0, 0⟩ :: ([⟨TK_IDENTIFIER, .s "x", 1⟩, ⟨TK_COLON, .n 0, 2⟩,
            ⟨TK_INTLITERAL, .n 7, 3⟩, ⟨TK_EOT, .n 0, 4⟩] ++ []),
          4, ⟨TK_EOT, .n 0, 4⟩⟩ :=
  c10_var_type_denoter_any_token "x" ⟨TK_INTLITERAL, .n 7, 3⟩ ⟨TK_EOT, .n 0, 4⟩ [] 0 1 2
    (by decide)

end MT
